import Mathlib

/-!
Shallow embedding of `compiler-service/server.js` (front-compiler).

Pure fragments of the service (Angular source normalization, base64
transport encoding, the docker log demultiplexing loop, tar-entry
filtering, request validation and response construction) are translated
directly from the source.  The effectful container-runtime calls
(`createContainer`, `start`, `wait`, `logs`, `getArchive`, `remove`) are
modelled by explicit outcome environments: each request run is a pure
function of the request, the process defaults, and the runtime outcomes.
-/

namespace FrontCompiler

/-- Result of JavaScript `Number(x)` applied to a request field: `NaN` or a
number (modelled as an integer; the service only compares against `0`). -/
inductive JSNum where
  | nan : JSNum
  | num : Int → JSNum
deriving DecidableEq

/-- The rejection test `isNaN(x) || x <= 0` used for every numeric field
(`server.js` lines 167, 197-204). -/
def JSNum.invalid : JSNum → Bool
  | .nan => true
  | .num n => decide (n ≤ 0)

/-- ASCII fragment of JS `String.prototype.toLowerCase` (the framework keys
are ASCII; Unicode-only case mappings are outside the modelled domain). -/
def lowerChar (c : Char) : Char :=
  if c.toNat ≥ 65 ∧ c.toNat ≤ 90 then Char.ofNat (c.toNat + 32) else c

/-- `framework.toLowerCase()` (`server.js` line 163). -/
def jsToLowerCase (s : String) : String := ⟨s.data.map lowerChar⟩

/-- ASCII fragment of JS `String.prototype.toUpperCase`. -/
def upperChar (c : Char) : Char :=
  if c.toNat ≥ 97 ∧ c.toNat ≤ 122 then Char.ofNat (c.toNat - 32) else c

/-- `framework.toUpperCase()` (`server.js` line 233). -/
def jsToUpperCase (s : String) : String := ⟨s.data.map upperChar⟩

/-- JS `String.prototype.includes`, on lists. -/
def listIncludes [BEq α] (needle : List α) : List α → Bool
  | [] => needle.isPrefixOf []
  | hay@(_ :: t) => needle.isPrefixOf hay || listIncludes needle t

/-- JS `String.prototype.includes` on strings. -/
def jsIncludesStr (needle hay : String) : Bool := listIncludes needle.data hay.data

/-! ### Framework profiles (`FRAMEWORKS`, `server.js` lines 36-61) -/

structure FrameworkConfig where
  image : String
  filePath : String
  distPath : String
  cacheHostPath : String
  cacheContPath : String
  buildCmd : String
deriving DecidableEq

def angularFramework : FrameworkConfig :=
  ⟨"angular-compiler:latest", "src/app/app.ts",
   "/workspace/template-app/dist/template-app", "/tmp/angular-cache",
   "/workspace/template-app/.angular/cache",
   "ng build --configuration production --output-hashing none --optimization true --source-map true --progress false"⟩

def reactFramework : FrameworkConfig :=
  ⟨"react-compiler:latest", "src/App.tsx", "/workspace/template-app/dist",
   "/tmp/react-cache", "/workspace/template-app/node_modules/.vite",
   "npm run build"⟩

def vueFramework : FrameworkConfig :=
  ⟨"vue-compiler:latest", "src/App.vue", "/workspace/template-app/dist",
   "/tmp/vue-cache", "/workspace/template-app/node_modules/.vite",
   "npx vite build"⟩

/-- Property lookup `FRAMEWORKS[key]` on the three-key object literal. -/
def FRAMEWORKS (key : String) : Option FrameworkConfig :=
  if key = "angular" then some angularFramework
  else if key = "react" then some reactFramework
  else if key = "vue" then some vueFramework
  else none

/-! ### Regex machinery for `prepareAngularCode` (`server.js` lines 329-346)

Each JS regex used by the normalizer is modelled by a matcher
`List Char → Option Nat` giving the length of the (unique, per JS
backtracking semantics) match anchored at the head of the list, plus a
leftmost-first scan for `String.replace`. -/

/-- JS regex `\s` (ASCII and Unicode whitespace code points). -/
def isJsSpace (c : Char) : Bool :=
  let n := c.toNat
  n = 9 || n = 10 || n = 11 || n = 12 || n = 13 || n = 32 || n = 160 ||
  n = 5760 || (8192 ≤ n && n ≤ 8202) || n = 8232 || n = 8233 || n = 8239 ||
  n = 8287 || n = 12288 || n = 65279

/-- JS line terminators, which `.` never matches. -/
def isLineTerm (c : Char) : Bool :=
  c = '\n' || c = '\r' || c.toNat = 8232 || c.toNat = 8233

/-- The character class `['"]`. -/
def isQuote (c : Char) : Bool := c = '\x27' || c = '"'

/-- JS regex `\w` = `[A-Za-z0-9_]`. -/
def isWordChar (c : Char) : Bool :=
  (c.toNat ≥ 97 && c.toNat ≤ 122) || (c.toNat ≥ 65 && c.toNat ≤ 90) ||
  (c.toNat ≥ 48 && c.toNat ≤ 57) || c = '_'

/-- Length of the maximal run of `\s` characters at the head. -/
def countSpaces : List Char → Nat
  | c :: t => if isJsSpace c then countSpaces t + 1 else 0
  | [] => 0

/-- Length of the maximal run of `\w` characters at the head. -/
def countWord : List Char → Nat
  | c :: t => if isWordChar c then countWord t + 1 else 0
  | [] => 0

/-- Lazy `.*?` up to and including the first `['"]` character; fails at a
line terminator or end of input (JS `.` does not match line terminators). -/
def lazyToQuote : List Char → Option Nat
  | [] => none
  | c :: t =>
    if isQuote c then some 1
    else if isLineTerm c then none
    else (lazyToQuote t).map (· + 1)

/-- Lazy `.*?` up to and including the first `,`. -/
def lazyToComma : List Char → Option Nat
  | [] => none
  | c :: t =>
    if c = ',' then some 1
    else if isLineTerm c then none
    else (lazyToComma t).map (· + 1)

/-- Lazy `.*?` up to and including the first `],`. -/
def lazyToBracketComma : List Char → Option Nat
  | [] => none
  | c :: t =>
    if c = ']' ∧ t.head? = some ',' then some 2
    else if isLineTerm c then none
    else (lazyToBracketComma t).map (· + 1)

/-- Anchored match of `selector:\s*['"].*?['"]`: the greedy `\s*` consumes
the whole whitespace run (no shorter amount can backtrack into a quote,
since a quote is not whitespace), then an opening quote, then the lazy
scan to the first closing quote. -/
def selectorMatchAt (s : List Char) : Option Nat :=
  if "selector:".data.isPrefixOf s then
    let rest := s.drop 9
    let w := countSpaces rest
    match rest.drop w with
    | c :: t => if isQuote c then (lazyToQuote t).map (fun k => 9 + w + 1 + k) else none
    | [] => none
  else none

/-- Anchored match of `export class \w+`. -/
def exportClassMatchAt (s : List Char) : Option Nat :=
  if "export class ".data.isPrefixOf s then
    let w := countWord (s.drop 13)
    if w = 0 then none else some (13 + w)
  else none

/-- Anchored match of the literal `@Component({`. -/
def atComponentMatchAt (s : List Char) : Option Nat :=
  if "@Component(\x7b".data.isPrefixOf s then some 12 else none

/-- Anchored match of `templateUrl:.*?,`. -/
def templateUrlMatchAt (s : List Char) : Option Nat :=
  if "templateUrl:".data.isPrefixOf s then (lazyToComma (s.drop 12)).map (12 + ·)
  else none

/-- Anchored match of `styleUrls:.*?\],`. -/
def styleUrlsMatchAt (s : List Char) : Option Nat :=
  if "styleUrls:".data.isPrefixOf s then (lazyToBracketComma (s.drop 10)).map (10 + ·)
  else none

/-- Anchored match of `styleUrl:.*?,`. -/
def styleUrlMatchAt (s : List Char) : Option Nat :=
  if "styleUrl:".data.isPrefixOf s then (lazyToComma (s.drop 9)).map (9 + ·)
  else none

/-- Leftmost match position and length, as for JS `RegExp.prototype.exec`. -/
def findMatch (m : List Char → Option Nat) : List Char → Option (Nat × Nat)
  | [] => (m []).map (fun k => (0, k))
  | s@(_ :: t) =>
    match m s with
    | some k => some (0, k)
    | none => (findMatch m t).map (fun p => (p.1 + 1, p.2))

/-- JS `String.prototype.replace` with a non-global regex: replace the
leftmost match, or return the string unchanged when nothing matches. -/
def replaceFirst (m : List Char → Option Nat) (repl : List Char) (s : List Char) : List Char :=
  match findMatch m s with
  | none => s
  | some (i, k) => s.take i ++ repl ++ s.drop (i + k)

/-- One pass of a global replace-with-empty: scan left to right over the
original string, removing each match and resuming after it.  Fuel is the
remaining string length; every step consumes at least one character. -/
def stripAllGo (m : List Char → Option Nat) : Nat → List Char → List Char
  | _, [] => []
  | 0, s => s
  | fuel + 1, s@(c :: t) =>
    match m s with
    | some k => stripAllGo m fuel (s.drop k)
    | none => c :: stripAllGo m fuel t

/-- JS `String.prototype.replace` with a global regex and `''` replacement. -/
def stripAll (m : List Char → Option Nat) (s : List Char) : List Char :=
  stripAllGo m s.length s

/-- The import line prepended when `@angular/common` is absent
(`server.js` line 332). -/
def commonImport : List Char :=
  "import \x7b CommonModule \x7d from \x27@angular/common\x27;\n".data

/-- `prepareAngularCode` (`server.js` lines 329-346), on character lists. -/
def prepareAngularData (userCode : List Char) : List Char :=
  let code := userCode
  let code := if listIncludes "@angular/common".data code then code else commonImport ++ code
  let code := replaceFirst selectorMatchAt "selector: \x27app-root\x27".data code
  let code := replaceFirst exportClassMatchAt "export class AppComponent".data code
  let code :=
    if listIncludes "standalone:".data code then code
    else replaceFirst atComponentMatchAt "@Component(\x7b\n  standalone: true,".data code
  let code := stripAll templateUrlMatchAt code
  let code := stripAll styleUrlsMatchAt code
  let code := stripAll styleUrlMatchAt code
  code

/-- `prepareAngularCode` (`server.js` lines 329-346). -/
def prepareAngularCode (userCode : String) : String := ⟨prepareAngularData userCode.data⟩

/-! ### Transport encoding and the sandbox shell command
(`createCompilationContainer`, `server.js` lines 277-322) -/

/-- The 64 base64 digits. -/
def b64table : List Char :=
  "ABCDEFGHIJKLMNOPQRSTUVWXYZabcdefghijklmnopqrstuvwxyz0123456789+/".data

/-- Digit selection for base64 (six-bit group to character). -/
def b64c (n : Nat) : Char := b64table.getD (n % 64) 'A'

/-- Standard base64 with `=` padding, as produced by
`Buffer.from(s).toString('base64')` (`server.js` line 286). -/
def base64Encode : List Nat → List Char
  | [] => []
  | [a] => [b64c (a / 4), b64c (a % 4 * 16), '=', '=']
  | [a, b] => [b64c (a / 4), b64c (a % 4 * 16 + b / 16), b64c (b % 16 * 4), '=']
  | a :: b :: c :: rest =>
    b64c (a / 4) :: b64c (a % 4 * 16 + b / 16) :: b64c (b % 16 * 4 + c / 64) ::
      b64c (c % 64) :: base64Encode rest

/-- UTF-8 bytes of one Unicode scalar (`Buffer.from` uses UTF-8). -/
def utf8Char (c : Char) : List Nat :=
  let n := c.toNat
  if n < 128 then [n]
  else if n < 2048 then [192 + n / 64, 128 + n % 64]
  else if n < 65536 then [224 + n / 4096, 128 + n / 64 % 64, 128 + n % 64]
  else [240 + n / 262144, 128 + n / 4096 % 64, 128 + n / 64 % 64, 128 + n % 64]

/-- UTF-8 bytes of a string. -/
def utf8Encode (s : String) : List Nat := s.data.flatMap utf8Char

/-- `finalCode` (`server.js` line 285): Angular source is normalized, all
other frameworks pass through.  The comparison is against the raw
(not lowercased) framework string, as in the source. -/
def finalCodeFor (framework : String) (userCode : String) : String :=
  if framework = "angular" then prepareAngularCode userCode else userCode

/-- `cleanupCmd` (`server.js` lines 289-296). -/
def cleanupCmdFor (framework : String) : String :=
  if framework = "vue" then "rm -f src/components/*.vue && "
  else if framework = "react" then "rm -f src/*.css src/App.tsx && "
  else if framework = "angular" then
    "rm -f src/app/app.ts src/app/app.component.html src/app/app.component.css && "
  else ""

/-- The shell text preceding the interpolated base64 payload in the
template literal of `server.js` lines 304-312. -/
def sandboxCmdHead (framework : String) : String :=
  "\ncd /workspace/template-app\n" ++ cleanupCmdFor framework ++ "\nprintf \x27%s\x27 \""

/-- The shell text following the interpolated base64 payload in the
template literal of `server.js` lines 304-312. -/
def sandboxCmdTail (config : FrameworkConfig) : String :=
  "\" | base64 -d > " ++ config.filePath ++
  "\n# Ensure the file timestamp is updated for Vite to pick up changes\ntouch " ++
  config.filePath ++ "\nsync\n" ++ config.buildCmd ++
  " && echo \"COMPILATION_COMPLETE\"\n"

/-- The full `/bin/sh -c` command string assembled by
`createCompilationContainer` (`server.js` lines 285-312): the fixed
template with `Base64(normalize(source))` substituted in. -/
def sandboxCmd (framework : String) (config : FrameworkConfig) (userCode : String) : String :=
  sandboxCmdHead framework ++
    (base64Encode (utf8Encode (finalCodeFor framework userCode))).asString ++
    sandboxCmdTail config

/-! ### Log demultiplexing (`waitForCompletion`, `server.js` lines 354-394) -/

/-- The docker multiplexed-log demux loop of `server.js` lines 369-376,
on the suffix of the buffer not yet consumed.  Node's
`Buffer.readUInt32BE(offset + 4)` requires eight available bytes and
throws `ERR_OUT_OF_RANGE` otherwise, which the model returns as
`.error`.  `Buffer.toString(utf8, start, end)` clamps `end` to the buffer
length, which `List.take` reproduces.  The transcript is modelled at the
byte level.  Fuel is the initial buffer length; each step consumes at
least eight bytes, so the fuel-exhaustion arm is unreachable from
`demuxLogs`. -/
def demuxGo : Nat → List Nat → Except String (List Nat)
  | _, [] => .ok []
  | 0, _ :: _ => .error "ERR_OUT_OF_RANGE"
  | fuel + 1, _ :: _ :: _ :: _ :: l1 :: l2 :: l3 :: l4 :: rest =>
    let len := ((l1 * 256 + l2) * 256 + l3) * 256 + l4
    (demuxGo fuel (rest.drop len)).map (fun tailPayload => rest.take len ++ tailPayload)
  | _ + 1, _ :: _ => .error "ERR_OUT_OF_RANGE"

/-- The complete demux pass over a log buffer. -/
def demuxLogs (buf : List Nat) : Except String (List Nat) := demuxGo buf.length buf

/-- One framed record of the multiplexed stream: a stream-type tag byte,
three reserved bytes, and a payload (the length field is derived). -/
structure LogFrame where
  tag : Nat
  res1 : Nat
  res2 : Nat
  res3 : Nat
  payload : List Nat
deriving DecidableEq

/-- Four-byte big-endian encoding of a length. -/
def natToBE4 (n : Nat) : List Nat :=
  [n / 16777216 % 256, n / 65536 % 256, n / 256 % 256, n % 256]

/-- The 8-byte header plus payload of one record. -/
def encodeFrame (f : LogFrame) : List Nat :=
  f.tag :: f.res1 :: f.res2 :: f.res3 :: (natToBE4 f.payload.length ++ f.payload)

/-- Concatenated frames of a record sequence. -/
def encodeFrames (fs : List LogFrame) : List Nat := (fs.map encodeFrame).flatten

/-- The completion marker token (`server.js` lines 311, 382), as bytes. -/
def COMPLETION_MARKER : List Nat := "COMPILATION_COMPLETE".data.map Char.toNat

/-- Resolved value of the `waitForCompletion` promise. -/
structure WaitResult where
  success : Bool
  error : Option String
  logs : List Nat
deriving DecidableEq

/-- Which of the raced outcomes settles `waitForCompletion` first, and the
runtime data it carries: the deadline timer, a `container.wait()`
rejection, a `container.logs()` rejection, or a completed wait with exit
status and raw log buffer. -/
inductive WaitEnv where
  | timeoutFirst
  | waitError (msg : String)
  | logsError (msg : String)
  | completed (statusCode : Int) (logsBuffer : List Nat)
deriving DecidableEq

/-- `waitForCompletion` (`server.js` lines 354-394).  The timeout arm
resolves `{success: false, error: 'Compilation timeout', logs: ''}`;
any exception (including a demux range error) resolves
`{success: false, error: message, logs: ''}`; otherwise success requires
exit status `0` and the completion marker in the transcript. -/
def waitForCompletion : WaitEnv → WaitResult
  | .timeoutFirst => ⟨false, some "Compilation timeout", []⟩
  | .waitError m => ⟨false, some m, []⟩
  | .logsError m => ⟨false, some m, []⟩
  | .completed status buf =>
    match demuxLogs buf with
    | .error m => ⟨false, some m, []⟩
    | .ok logs =>
      if status == 0 && listIncludes COMPLETION_MARKER logs then ⟨true, none, logs⟩
      else ⟨false, some "Build Failed", logs⟩

/-! ### Artifact collection (`extractCompiledFiles`, `server.js` lines 402-437) -/

/-- One tar entry streamed by the extractor: `header.name`, `header.type`
(`"file"`, `"directory"`, ...), and its buffered body decoded as text. -/
structure TarEntry where
  name : String
  type : String
  content : String
deriving DecidableEq

/-- `header.name.split('/').pop()` (`server.js` line 414). -/
def baseNameOf (n : String) : String := (n.splitOn "/").getLastD ""

/-- The extension allow-list test `/\.(js|css|html|map)$/.test(filename)`
(`server.js` line 417): case-sensitive suffix match. -/
def matchesOutputExt (f : String) : Bool :=
  f.endsWith ".js" || f.endsWith ".css" || f.endsWith ".html" || f.endsWith ".map"

/-- JS object property assignment `files[k] = v`: overwrite in place if the
key exists, else append. -/
def jsAssign (m : List (String × String)) (k v : String) : List (String × String) :=
  match m with
  | [] => [(k, v)]
  | (a, b) :: t => if a = k then (k, v) :: t else (a, b) :: jsAssign t k v

/-- JS object property read `files[k]`. -/
def lookupKey (m : List (String × String)) (k : String) : Option String :=
  match m with
  | [] => none
  | (a, b) :: t => if a = k then some b else lookupKey t k

/-- The per-entry handler of `server.js` lines 409-422. -/
def collectEntry (m : List (String × String)) (e : TarEntry) : List (String × String) :=
  let filename := baseNameOf e.name
  if (e.type == "file") && matchesOutputExt filename then jsAssign m filename e.content
  else m

/-- The accumulated `files` object after the archive stream finishes. -/
def collectFiles (es : List TarEntry) : List (String × String) :=
  es.foldl collectEntry []

/-- Outcome of the archive read: either the awaited
`container.getArchive` call rejects (caught by the `try`/`catch` of
`extractCompiledFiles`), or the extraction stream yields a list of
entries and possibly emits an `'error'` event. -/
inductive ArchiveEnv where
  | archiveError (msg : String)
  | stream (entries : List TarEntry) (streamError : Option String)
deriving DecidableEq

/-- `extractCompiledFiles` (`server.js` lines 402-437).  A `getArchive`
rejection is caught and yields `{}`.  An `'error'` event on the
extraction stream calls `reject`; because the `try` block returns the
promise without awaiting it, that rejection is NOT caught by the
`catch` on line 433 and propagates to the caller, modelled as
`.error`. -/
def extractCompiledFiles : ArchiveEnv → Except String (List (String × String))
  | .archiveError _ => .ok []
  | .stream entries none => .ok (collectFiles entries)
  | .stream _ (some m) => .error m

/-! ### The `/compile` handler (`server.js` lines 153-266) -/

/-- The `code` field of the request body: absent, present but not a
string, or a string (the empty string is falsy and also rejected). -/
inductive CodeField where
  | missing
  | nonString
  | str (s : String)
deriving DecidableEq

/-- A `/compile` request body after applying `Number(...)` to the numeric
fields (`server.js` lines 154-161, 166, 189-193). -/
structure CompileRequest where
  code : CodeField
  framework : Option String
  timeout : Option JSNum
  memory : Option JSNum
  cpuPeriod : Option JSNum
  cpuQuota : Option JSNum
deriving DecidableEq

/-- Snapshot of the process-wide `DOCKER_LIMITS` and
`DEFAULT_COMPILE_TIMEOUT_MS` at request time. -/
structure Defaults where
  MEMORY : JSNum
  CPU_PERIOD : JSNum
  CPU_QUOTA : JSNum
  timeoutMs : JSNum
deriving DecidableEq

def effTimeout (d : Defaults) (req : CompileRequest) : JSNum := req.timeout.getD d.timeoutMs
def effMemory (d : Defaults) (req : CompileRequest) : JSNum := req.memory.getD d.MEMORY
def effCpuPeriod (d : Defaults) (req : CompileRequest) : JSNum := req.cpuPeriod.getD d.CPU_PERIOD
def effCpuQuota (d : Defaults) (req : CompileRequest) : JSNum := req.cpuQuota.getD d.CPU_QUOTA

/-- `!code || typeof code !== 'string'` (`server.js` line 181). -/
def codeInvalid : CodeField → Bool
  | .str s => s == ""
  | _ => true

/-- The combined resource-limit rejection test of `server.js`
lines 197-204. -/
def limitsInvalid (d : Defaults) (req : CompileRequest) : Bool :=
  (effMemory d req).invalid || (effCpuPeriod d req).invalid || (effCpuQuota d req).invalid

/-- The JSON body and status code sent for one `/compile` request.  The
wall-clock `compilationTime` of the success body is not modelled. -/
structure CompileResponse where
  status : Nat
  success : Bool
  error : Option String
  logs : Option (List Nat)
  framework : Option String
  files : Option (List (String × String))
deriving DecidableEq

/-- Outcomes of the five container-runtime calls a job can make. -/
structure SandboxEnv where
  createResult : Except String Unit
  startResult : Except String Unit
  wait : WaitEnv
  archive : ArchiveEnv
  removeResult : Except String Unit

/-- One handler run: the response, whether `createContainer` succeeded
(so the `container` variable was assigned), and how many times
`container.remove({force: true})` was attempted in the `finally` block. -/
structure HandlerRun where
  resp : CompileResponse
  createdOk : Bool
  removeCount : Nat

def badRequest (msg : String) : CompileResponse := ⟨400, false, some msg, none, none, none⟩

/-- The `try`/`catch`/`finally` body of the handler (`server.js`
lines 216-265) after validation: create, start, wait, extract, respond;
the `finally` block attempts exactly one forced removal whenever the
`container` variable was assigned, and its own failure is logged and
swallowed (the stored `removeResult` is never consulted). -/
def runCompileJob (framework : String) (env : SandboxEnv) : HandlerRun :=
  match env.createResult with
  | .error m => ⟨⟨500, false, some m, none, none, none⟩, false, 0⟩
  | .ok _ =>
    match env.startResult with
    | .error m => ⟨⟨500, false, some m, none, none, none⟩, true, 1⟩
    | .ok _ =>
      let result := waitForCompletion env.wait
      if result.success then
        match extractCompiledFiles env.archive with
        | .error m => ⟨⟨500, false, some m, none, none, none⟩, true, 1⟩
        | .ok files => ⟨⟨200, true, none, none, some framework, some files⟩, true, 1⟩
      else
        ⟨⟨400, false, some (jsToUpperCase framework ++ " Build Failed"), some result.logs,
          none, none⟩, true, 1⟩

/-- The early-return validation sequence of the handler (`server.js`
lines 166-210), in source order: effective timeout, framework lookup on
the lowercased key, code check, resource-limit check.  `none` means all
validations passed. -/
def validationResponse (d : Defaults) (req : CompileRequest) : Option CompileResponse :=
  let framework := req.framework.getD "angular"
  if (effTimeout d req).invalid then
    some (badRequest "Invalid timeout value. Must be a positive number (milliseconds)")
  else
    match FRAMEWORKS (jsToLowerCase framework) with
    | none => some (badRequest ("Unsupported framework: " ++ framework))
    | some _ =>
      if codeInvalid req.code then some (badRequest "Invalid code provided")
      else if limitsInvalid d req then
        some (badRequest "Invalid resource limits. memory, cpuPeriod, and cpuQuota must be positive numbers")
      else none

/-- The `/compile` handler (`server.js` lines 153-266): the validation
sequence, then the job body.  The looked-up config is consumed only by
the container spec and the archive path, both of which are abstracted by
`SandboxEnv`. -/
def compileHandler (d : Defaults) (req : CompileRequest) (env : SandboxEnv) : HandlerRun :=
  match validationResponse d req with
  | some resp => ⟨resp, false, 0⟩
  | none => runCompileJob (req.framework.getD "angular") env

/-- All four validation stages pass. -/
def validRequest (d : Defaults) (req : CompileRequest) : Bool :=
  !(effTimeout d req).invalid &&
  (FRAMEWORKS (jsToLowerCase (req.framework.getD "angular"))).isSome &&
  !codeInvalid req.code &&
  !limitsInvalid d req

/-! ### Sample data used to instantiate hypotheses at concrete inputs -/

/-- The initial process defaults (`server.js` lines 20-27). -/
def dflt0 : Defaults := ⟨.num 2147483648, .num 100000, .num 200000, .num 60000⟩

def req0 : CompileRequest := ⟨.str "code", some "angular", none, none, none, none⟩

def reqBadMem : CompileRequest := ⟨.str "code", some "react", none, some (.num 0), none, none⟩

/-- A log buffer holding exactly one frame whose payload is the
completion marker. -/
def markerBuf : List Nat := encodeFrames [⟨1, 0, 0, 0, COMPLETION_MARKER⟩]

def frames0 : List LogFrame := [⟨1, 0, 0, 0, [104, 105]⟩, ⟨2, 0, 0, 0, []⟩, ⟨1, 0, 0, 0, [10]⟩]

/-! ## Helper lemmas -/

theorem take_len_append (l r : List α) : (l ++ r).take l.length = l := by
  induction l with
  | nil => rfl
  | cons a t ih => simp [ih]

theorem drop_len_append (l r : List α) : (l ++ r).drop l.length = r := by
  induction l with
  | nil => rfl
  | cons a t ih => simp [ih]

theorem getD_mem : ∀ (l : List α) (i : Nat) (d : α), i < l.length → l.getD i d ∈ l
  | _ :: _, 0, _, _ => List.Mem.head _
  | _ :: t, i + 1, d, h => List.Mem.tail _ (getD_mem t i d (Nat.lt_of_succ_lt_succ h))

theorem b64c_mem (n : Nat) : b64c n ∈ b64table := by
  have hl : b64table.length = 64 := by decide
  have h64 : n % 64 < b64table.length := by
    rw [hl]; exact Nat.mod_lt _ (by decide)
  exact getD_mem _ _ _ h64

/-- Every character emitted by the base64 encoder is a base64 digit or
the padding character. -/
theorem base64Encode_alphabet : ∀ (bs : List Nat), ∀ c ∈ base64Encode bs, c ∈ b64table ∨ c = '='
  | [] => by simp [base64Encode]
  | [a] => by
    intro c hc
    simp only [base64Encode, List.mem_cons, List.not_mem_nil, or_false] at hc
    rcases hc with h | h | h | h
    · exact Or.inl (by rw [h]; exact b64c_mem _)
    · exact Or.inl (by rw [h]; exact b64c_mem _)
    · exact Or.inr h
    · exact Or.inr h
  | [a, b] => by
    intro c hc
    simp only [base64Encode, List.mem_cons, List.not_mem_nil, or_false] at hc
    rcases hc with h | h | h | h
    · exact Or.inl (by rw [h]; exact b64c_mem _)
    · exact Or.inl (by rw [h]; exact b64c_mem _)
    · exact Or.inl (by rw [h]; exact b64c_mem _)
    · exact Or.inr h
  | a :: b :: c2 :: rest => by
    intro c hc
    simp only [base64Encode, List.mem_cons] at hc
    rcases hc with h | h | h | h | h
    · exact Or.inl (by rw [h]; exact b64c_mem _)
    · exact Or.inl (by rw [h]; exact b64c_mem _)
    · exact Or.inl (by rw [h]; exact b64c_mem _)
    · exact Or.inl (by rw [h]; exact b64c_mem _)
    · exact base64Encode_alphabet rest c h

theorem be4_dec (n : Nat) (h : n < 4294967296) :
    ((n / 16777216 % 256 * 256 + n / 65536 % 256) * 256 + n / 256 % 256) * 256 + n % 256 = n := by
  omega

theorem encodeFrames_length (fs : List LogFrame) : fs.length ≤ (encodeFrames fs).length := by
  induction fs with
  | nil => simp [encodeFrames]
  | cons f t ih =>
    have : encodeFrames (f :: t) = encodeFrame f ++ encodeFrames t := by
      simp [encodeFrames]
    rw [this]
    simp only [encodeFrame, natToBE4, List.length_append, List.length_cons]
    omega

theorem demuxGo_encode (fs : List LogFrame) :
    ∀ (fuel : Nat), fs.length ≤ fuel → (∀ f ∈ fs, f.payload.length < 4294967296) →
      demuxGo fuel (encodeFrames fs) = .ok ((fs.map LogFrame.payload).flatten) := by
  induction fs with
  | nil => intro fuel _ _; cases fuel <;> rfl
  | cons f t ih =>
    intro fuel hfuel hlen
    cases fuel with
    | zero => exact absurd hfuel (by simp)
    | succ fuel =>
      have hf : f.payload.length < 4294967296 := hlen f (List.mem_cons_self f t)
      have he : encodeFrames (f :: t) =
          f.tag :: f.res1 :: f.res2 :: f.res3 ::
          (f.payload.length / 16777216 % 256) :: (f.payload.length / 65536 % 256) ::
          (f.payload.length / 256 % 256) :: (f.payload.length % 256) ::
          (f.payload ++ encodeFrames t) := by
        simp [encodeFrames, encodeFrame, natToBE4]
      rw [he]
      simp only [demuxGo]
      rw [be4_dec _ hf, drop_len_append, take_len_append,
        ih fuel (Nat.le_of_succ_le_succ hfuel) (fun g hg => hlen g (List.mem_cons_of_mem f hg))]
      rfl

theorem demuxGo_short : ∀ (fuel : Nat) (t : List Nat), t ≠ [] → t.length < 8 →
    demuxGo (fuel + 1) t = .error "ERR_OUT_OF_RANGE"
  | _, [], h1, _ => absurd rfl h1
  | _, [_], _, _ => rfl
  | _, [_, _], _, _ => rfl
  | _, [_, _, _], _, _ => rfl
  | _, [_, _, _, _], _, _ => rfl
  | _, [_, _, _, _, _], _, _ => rfl
  | _, [_, _, _, _, _, _], _, _ => rfl
  | _, [_, _, _, _, _, _, _], _, _ => rfl
  | _, _ :: _ :: _ :: _ :: _ :: _ :: _ :: _ :: _, _, h7 => absurd h7 (by simp)

theorem demuxGo_trailing (t : List Nat) (h1 : t ≠ []) (h7 : t.length < 8) :
    ∀ (fs : List LogFrame) (fuel : Nat), fs.length + 1 ≤ fuel →
      (∀ f ∈ fs, f.payload.length < 4294967296) →
      demuxGo fuel (encodeFrames fs ++ t) = .error "ERR_OUT_OF_RANGE" := by
  intro fs
  induction fs with
  | nil =>
    intro fuel hfuel _
    cases fuel with
    | zero => exact absurd hfuel (by simp)
    | succ fuel =>
      have : encodeFrames [] ++ t = t := by simp [encodeFrames]
      rw [this]
      exact demuxGo_short fuel t h1 h7
  | cons f rest ih =>
    intro fuel hfuel hlen
    cases fuel with
    | zero => exact absurd hfuel (by simp)
    | succ fuel =>
      have hf : f.payload.length < 4294967296 := hlen f (List.mem_cons_self f rest)
      have he : encodeFrames (f :: rest) ++ t =
          f.tag :: f.res1 :: f.res2 :: f.res3 ::
          (f.payload.length / 16777216 % 256) :: (f.payload.length / 65536 % 256) ::
          (f.payload.length / 256 % 256) :: (f.payload.length % 256) ::
          (f.payload ++ (encodeFrames rest ++ t)) := by
        simp [encodeFrames, encodeFrame, natToBE4]
      rw [he]
      simp only [demuxGo]
      rw [be4_dec _ hf, drop_len_append,
        ih fuel (Nat.le_of_succ_le_succ hfuel) (fun g hg => hlen g (List.mem_cons_of_mem f hg))]
      rfl

theorem findMatch_none_head {m : List Char → Option Nat} {c : Char} {t : List Char}
    (h : findMatch m (c :: t) = none) : m (c :: t) = none ∧ findMatch m t = none := by
  unfold findMatch at h
  cases hm : m (c :: t) with
  | some k => rw [hm] at h; exact absurd h (by simp)
  | none =>
    rw [hm] at h
    refine ⟨rfl, ?_⟩
    cases hf : findMatch m t with
    | some p => rw [hf] at h; exact absurd h (by simp)
    | none => rfl

theorem stripAllGo_id (m : List Char → Option Nat) :
    ∀ (s : List Char) (fuel : Nat), findMatch m s = none → stripAllGo m fuel s = s
  | [], 0, _ => rfl
  | [], _ + 1, _ => rfl
  | _ :: _, 0, _ => rfl
  | c :: t, fuel + 1, h => by
    obtain ⟨hm, ht⟩ := findMatch_none_head h
    unfold stripAllGo
    rw [hm]
    simp [stripAllGo_id m t fuel ht]

theorem stripAll_id (m : List Char → Option Nat) (s : List Char)
    (h : findMatch m s = none) : stripAll m s = s :=
  stripAllGo_id m s s.length h

theorem lookupKey_jsAssign : ∀ (m : List (String × String)) (k v k' : String),
    lookupKey (jsAssign m k v) k' = if k' = k then some v else lookupKey m k'
  | [], k, v, k' => by
    by_cases h : k' = k
    · subst h; simp [jsAssign, lookupKey]
    · have h2 : ¬(k = k') := fun he => h he.symm
      simp [jsAssign, lookupKey, h, h2]
  | (a, b) :: t, k, v, k' => by
    simp only [jsAssign]
    by_cases hak : a = k
    · rw [if_pos hak]
      simp only [lookupKey]
      by_cases hk : k' = k
      · rw [if_pos (hk.symm), if_pos hk]
      · have h1 : ¬(k = k') := fun he => hk he.symm
        rw [if_neg h1, if_neg hk]
        rw [if_neg (fun he : a = k' => hk (he.symm.trans hak))]
    · rw [if_neg hak]
      simp only [lookupKey]
      by_cases hka : a = k'
      · have hk : ¬(k' = k) := fun he => hak (hka.trans he)
        rw [if_pos hka, if_neg hk, if_pos hka]
      · rw [if_neg hka, lookupKey_jsAssign t k v k']
        by_cases hk : k' = k
        · rw [if_pos hk, if_pos hk]
        · rw [if_neg hk, if_neg hk, if_neg hka]

theorem getLast?_cons_eq (a : α) (l : List α) :
    (a :: l).getLast? = some ((l.getLast?).getD a) := by
  induction l generalizing a with
  | nil => rfl
  | cons b l ih => simp [List.getLast?_cons_cons, ih]

theorem lookupKey_foldl_collect (k : String) :
    ∀ (es : List TarEntry) (m : List (String × String)),
      lookupKey (es.foldl collectEntry m) k =
        match (es.filter (fun e =>
            ((e.type == "file") && matchesOutputExt (baseNameOf e.name)) &&
              (baseNameOf e.name == k))).getLast? with
        | some e => some e.content
        | none => lookupKey m k
  | [], m => by simp
  | e :: es, m => by
    rw [List.foldl_cons, lookupKey_foldl_collect k es (collectEntry m e)]
    by_cases hb1 : ((e.type == "file") && matchesOutputExt (baseNameOf e.name)) = true
    · by_cases hb2 : (baseNameOf e.name == k) = true
      · have hk : baseNameOf e.name = k := by simpa using hb2
        rw [List.filter_cons_of_pos (by simp [hb1, hb2]), getLast?_cons_eq]
        cases hl : (es.filter (fun e =>
            ((e.type == "file") && matchesOutputExt (baseNameOf e.name)) &&
              (baseNameOf e.name == k))).getLast? with
        | some e2 => simp
        | none =>
          have hc : collectEntry m e = jsAssign m (baseNameOf e.name) e.content := by
            simp [collectEntry, hb1]
          rw [hc, hk, lookupKey_jsAssign]
          simp
      · have hk : ¬(baseNameOf e.name = k) := by simpa using hb2
        rw [List.filter_cons_of_neg (by simp [hb2])]
        have hacc : lookupKey (collectEntry m e) k = lookupKey m k := by
          have hc : collectEntry m e = jsAssign m (baseNameOf e.name) e.content := by
            simp [collectEntry, hb1]
          rw [hc, lookupKey_jsAssign]
          exact if_neg (fun he => hk he.symm)
        rw [hacc]
    · rw [List.filter_cons_of_neg (by simp [hb1])]
      have hacc : collectEntry m e = m := by simp [collectEntry, hb1]
      rw [hacc]

/-! ## Claim theorems -/

/-- C2: for every submitted source string, the shell command assembled for
the sandbox is the fixed template with `Base64(normalize(source))`
substituted in, and every character of the substituted segment is drawn
from the base64 alphabet (a digit or the `=` padding character) — so no
character of the untrusted source text appears unescaped in the command. -/
theorem sandboxCmd_embeds_base64_only (framework : String) (config : FrameworkConfig)
    (userCode : String) :
    sandboxCmd framework config userCode =
      sandboxCmdHead framework ++
        (base64Encode (utf8Encode (finalCodeFor framework userCode))).asString ++
        sandboxCmdTail config ∧
    ∀ c ∈ base64Encode (utf8Encode (finalCodeFor framework userCode)),
      c ∈ b64table ∨ c = '=' :=
  ⟨rfl, base64Encode_alphabet _⟩

/-- Witness for C2 at a concrete input: `'e'` is a character of the
encoded segment for source `"x"`, and it lies in the base64 alphabet. -/
theorem sandboxCmd_embeds_base64_only_witness :
    'e' ∈ base64Encode (utf8Encode (finalCodeFor "react" "x")) ∧
    ('e' ∈ b64table ∨ 'e' = '=') :=
  ⟨by decide, (sandboxCmd_embeds_base64_only "react" reactFramework "x").2 'e' (by decide)⟩

/-- C8: log demultiplexing is a round-trip — decoding the concatenation of
frames (8-byte header: tag byte, 3 reserved bytes, 4-byte big-endian
length; then exactly that many payload bytes) reproduces the concatenation
of the payloads in order, for any number of records including empty
payloads, regardless of the tag and reserved bytes. -/
theorem demux_roundtrip (fs : List LogFrame)
    (h : ∀ f ∈ fs, f.payload.length < 4294967296) :
    demuxLogs (encodeFrames fs) = .ok ((fs.map LogFrame.payload).flatten) :=
  demuxGo_encode fs (encodeFrames fs).length (encodeFrames_length fs) h

/-- Witness for C8: three concrete records (two-byte payload, empty
payload, one-byte payload) decode to their concatenated payloads. -/
theorem demux_roundtrip_witness :
    (∀ f ∈ frames0, f.payload.length < 4294967296) ∧
    demuxLogs (encodeFrames frames0) = .ok ((frames0.map LogFrame.payload).flatten) :=
  ⟨by decide, demux_roundtrip frames0 (by decide)⟩

/-- C5 (counterexample): a buffer consisting of one complete frame
(payload byte 65) followed by a single trailing byte does NOT yield the
transcript decoded so far — `Buffer.readUInt32BE` raises
`ERR_OUT_OF_RANGE`, and `waitForCompletion`'s catch turns the job into a
failure with an empty transcript, discarding the decoded prefix. -/
theorem demux_trailing_raises :
    demuxLogs [1, 0, 0, 0, 0, 0, 0, 1, 65, 9] = .error "ERR_OUT_OF_RANGE" ∧
    waitForCompletion (.completed 0 [1, 0, 0, 0, 0, 0, 0, 1, 65, 9]) =
      ⟨false, some "ERR_OUT_OF_RANGE", []⟩ := by
  exact ⟨rfl, rfl⟩

/-- C5 (amended): for every log buffer whose final bytes form an
incomplete record header (fewer than 8 bytes remaining after well-formed
frames), the demux loop raises an out-of-range read error instead of
treating the trailing bytes as end-of-stream; the surrounding catch in
`waitForCompletion` then reports a failed result with an empty
transcript. -/
theorem demux_incomplete_header_error (fs : List LogFrame) (t : List Nat)
    (hlen : ∀ f ∈ fs, f.payload.length < 4294967296)
    (h1 : t ≠ []) (h7 : t.length < 8) :
    demuxLogs (encodeFrames fs ++ t) = .error "ERR_OUT_OF_RANGE" ∧
    ∀ c : Int, waitForCompletion (.completed c (encodeFrames fs ++ t)) =
      ⟨false, some "ERR_OUT_OF_RANGE", []⟩ := by
  have hfuel : fs.length + 1 ≤ (encodeFrames fs ++ t).length := by
    have h2 := encodeFrames_length fs
    have h3 : 1 ≤ t.length := by
      cases t with
      | nil => exact absurd rfl h1
      | cons a t2 => simp
    simp only [List.length_append]
    omega
  have hd : demuxLogs (encodeFrames fs ++ t) = .error "ERR_OUT_OF_RANGE" :=
    demuxGo_trailing t h1 h7 fs (encodeFrames fs ++ t).length hfuel hlen
  refine ⟨hd, fun c => ?_⟩
  simp only [waitForCompletion, hd]

/-- Witness for C5's amended theorem: one well-formed frame followed by a
single stray byte produces the range error and the failed wait result. -/
theorem demux_incomplete_header_error_witness :
    demuxLogs (encodeFrames frames0 ++ [7]) = .error "ERR_OUT_OF_RANGE" ∧
    waitForCompletion (.completed 0 (encodeFrames frames0 ++ [7])) =
      ⟨false, some "ERR_OUT_OF_RANGE", []⟩ :=
  ⟨(demux_incomplete_header_error frames0 [7] (by decide) (by decide) (by decide)).1,
   (demux_incomplete_header_error frames0 [7] (by decide) (by decide) (by decide)).2 0⟩

/-- C7 (counterexample): `prepareAngularCode` is not idempotent.  The
global strip of `templateUrl:.*?,` removes the first match from the
original string and splices the remainder together, which creates a new
`templateUrl: ... ,` occurrence; a second application removes it too, so
the two results differ. -/
theorem prepareAngularCode_not_idempotent :
    prepareAngularCode (prepareAngularCode "@angular/common ttemplateUrl: a,emplateUrl: b,") ≠
      prepareAngularCode "@angular/common ttemplateUrl: a,emplateUrl: b," := by
  decide

/-- C7 (amended): each individual rewrite of `prepareAngularCode` is a
best-effort substitution that is a no-op when its pattern does not match —
in particular, when the import and standalone guards are already satisfied
and none of the five patterns matches anywhere, the function returns its
input unchanged.  Full idempotence fails (see the counterexample). -/
theorem prepareAngularCode_noop_on_mismatch (s : String)
    (h1 : listIncludes "@angular/common".data s.data = true)
    (h2 : listIncludes "standalone:".data s.data = true)
    (h3 : findMatch selectorMatchAt s.data = none)
    (h4 : findMatch exportClassMatchAt s.data = none)
    (h5 : findMatch templateUrlMatchAt s.data = none)
    (h6 : findMatch styleUrlsMatchAt s.data = none)
    (h7 : findMatch styleUrlMatchAt s.data = none) :
    prepareAngularCode s = s := by
  have e : prepareAngularData s.data = s.data := by
    simp only [prepareAngularData]
    rw [if_pos h1]
    simp only [replaceFirst, h3, h4]
    rw [if_pos h2]
    rw [stripAll_id _ _ h5, stripAll_id _ _ h6, stripAll_id _ _ h7]
  show (⟨prepareAngularData s.data⟩ : String) = s
  rw [e]

/-- Witness for C7's amended theorem at a concrete input on which no
rewrite applies. -/
theorem prepareAngularCode_noop_on_mismatch_witness :
    prepareAngularCode "@angular/common standalone: x" = "@angular/common standalone: x" :=
  prepareAngularCode_noop_on_mismatch "@angular/common standalone: x"
    (by decide) (by decide) (by decide) (by decide) (by decide) (by decide) (by decide)

/-- C9: the artifact set contains an entry exactly for the archive members
whose type is regular `file` and whose base filename (final path segment)
ends, case-sensitively, in one of the output extensions; other entries are
dropped, nested paths collapse to the base name, and duplicate base names
collide last-wins — the stored content is that of the last matching
entry. -/
theorem collectFiles_exact (es : List TarEntry) (k : String) :
    lookupKey (collectFiles es) k =
      ((es.filter (fun e =>
          ((e.type == "file") && matchesOutputExt (baseNameOf e.name)) &&
            (baseNameOf e.name == k))).getLast?).map TarEntry.content := by
  have h := lookupKey_foldl_collect k es []
  rw [collectFiles, h]
  cases (es.filter (fun e =>
      ((e.type == "file") && matchesOutputExt (baseNameOf e.name)) &&
        (baseNameOf e.name == k))).getLast? with
  | some e => rfl
  | none => rfl

/-! ## Handler-level lemmas -/

theorem str_data_append (s t : String) : (s ++ t).data = s.data ++ t.data := rfl

theorem str_length_append (s t : String) : (s ++ t).length = s.length + t.length := by
  show ((s ++ t).data).length = s.data.length + t.data.length
  rw [str_data_append]
  exact List.length_append _ _

theorem len_jsToUpperCase (s : String) : (jsToUpperCase s).length = s.length := by
  show (s.data.map upperChar).length = s.data.length
  exact List.length_map _ _

theorem msg_ne_unsupported (msg : String) (h : msg.data.head? = some 'I') (fw : String) :
    ¬(msg = "Unsupported framework: " ++ fw) := by
  intro he
  have h2 : ("Unsupported framework: " ++ fw).data.head? = some 'U' := by
    rw [str_data_append]
    rfl
  rw [he, h2] at h
  exact absurd h (by decide)

theorem buildfail_ne_unsupported (fw : String) :
    ¬(jsToUpperCase fw ++ " Build Failed" = "Unsupported framework: " ++ fw) := by
  intro he
  have h1 := congrArg String.length he
  rw [str_length_append, str_length_append, len_jsToUpperCase] at h1
  have h13 : (" Build Failed" : String).length = 13 := by decide
  have h23 : ("Unsupported framework: " : String).length = 23 := by decide
  rw [h13, h23] at h1
  omega

theorem validationResponse_eq_none (d : Defaults) (req : CompileRequest)
    (hv : validRequest d req = true) : validationResponse d req = none := by
  unfold validRequest at hv
  simp only [Bool.and_eq_true, Bool.not_eq_true'] at hv
  obtain ⟨⟨⟨h1, h2⟩, h3⟩, h4⟩ := hv
  obtain ⟨cfg, hcfg⟩ := Option.isSome_iff_exists.mp h2
  simp [validationResponse, h1, h3, h4, hcfg]

theorem runCompileJob_remove (fw : String) (env : SandboxEnv)
    (h : (runCompileJob fw env).createdOk = true) :
    (runCompileJob fw env).removeCount = 1 := by
  obtain ⟨c, s, w, a, r⟩ := env
  cases c with
  | error m => simp [runCompileJob] at h
  | ok u =>
    cases s with
    | error m => rfl
    | ok u2 =>
      cases hw : (waitForCompletion w).success with
      | false => simp [runCompileJob, hw]
      | true =>
        cases he : extractCompiledFiles a with
        | error m => simp [runCompileJob, hw, he]
        | ok fl => simp [runCompileJob, hw, he]

/-- C1: for every `/compile` request in which the sandbox container is
created, the container is force-removed exactly once before the handler
finishes, whatever the terminal outcome (success, build failure, timeout,
extraction error, or internal error), and a failure of the removal itself
is swallowed: the response is unchanged under any removal outcome. -/
theorem sandbox_removed_exactly_once (d : Defaults) (req : CompileRequest)
    (c s : Except String Unit) (w : WaitEnv) (a : ArchiveEnv) (r : Except String Unit)
    (h : (compileHandler d req ⟨c, s, w, a, r⟩).createdOk = true) :
    (compileHandler d req ⟨c, s, w, a, r⟩).removeCount = 1 ∧
    ∀ r' : Except String Unit,
      (compileHandler d req ⟨c, s, w, a, r'⟩).resp =
        (compileHandler d req ⟨c, s, w, a, r⟩).resp := by
  refine ⟨?_, fun r' => rfl⟩
  unfold compileHandler at h ⊢
  cases hv : validationResponse d req with
  | some resp => rw [hv] at h; simp at h
  | none =>
    rw [hv] at h
    exact runCompileJob_remove _ _ h

/-- Witness for C1 at a successful concrete run. -/
theorem sandbox_removed_exactly_once_witness :
    (compileHandler dflt0 req0
      ⟨.ok (), .ok (), .completed 0 markerBuf, .stream [] none, .ok ()⟩).removeCount = 1 :=
  (sandbox_removed_exactly_once dflt0 req0 (.ok ()) (.ok ()) (.completed 0 markerBuf)
    (.stream [] none) (.ok ()) (by decide)).1

/-- C3 (counterexample): the `/compile` response on timeout is NOT
distinguishable from an ordinary build failure — a timeout run and a
build-failure run (nonzero exit, empty logs) produce identical responses;
the internal wait results differ (`Compilation timeout` vs `Build
Failed`) but the handler discards that field. -/
theorem timeout_response_indistinguishable :
    (compileHandler dflt0 req0
        ⟨.ok (), .ok (), .timeoutFirst, .stream [] none, .ok ()⟩).resp =
      (compileHandler dflt0 req0
        ⟨.ok (), .ok (), .completed 1 [], .stream [] none, .ok ()⟩).resp ∧
    waitForCompletion .timeoutFirst ≠ waitForCompletion (.completed 1 []) := by
  exact ⟨rfl, by decide⟩

/-- C3 (amended): when the deadline elapses before the sandbox signals
completion, the response has `success: false` and an empty transcript
(no logs are collected on this path), but its error field is the same
`<FRAMEWORK> Build Failed` message used for ordinary build failures; the
internal wait result's `Compilation timeout` error is not surfaced. -/
theorem timeout_terminal_response (d : Defaults) (req : CompileRequest)
    (a : ArchiveEnv) (r : Except String Unit)
    (hv : validRequest d req = true) :
    (compileHandler d req ⟨.ok (), .ok (), .timeoutFirst, a, r⟩).resp =
      ⟨400, false, some (jsToUpperCase (req.framework.getD "angular") ++ " Build Failed"),
        some [], none, none⟩ ∧
    waitForCompletion WaitEnv.timeoutFirst =
      ⟨false, some "Compilation timeout", []⟩ := by
  refine ⟨?_, rfl⟩
  unfold compileHandler
  rw [validationResponse_eq_none d req hv]
  rfl

/-- Witness for C3's amended theorem at a concrete request. -/
theorem timeout_terminal_response_witness :
    (compileHandler dflt0 req0 ⟨.ok (), .ok (), .timeoutFirst, .stream [] none, .ok ()⟩).resp =
      ⟨400, false, some (jsToUpperCase "angular" ++ " Build Failed"), some [], none, none⟩ :=
  (timeout_terminal_response dflt0 req0 (.stream [] none) (.ok ()) (by decide)).1

/-- C6 (counterexample): an error emitted by the archive stream during
extraction is NOT swallowed into an empty ArtifactSet — the rejection
propagates past the collector's `catch` (the promise is returned without
being awaited inside the `try`), and the job is reported as a 500
internal error, not as a success. -/
theorem stream_error_reported_as_internal_error :
    (compileHandler dflt0 req0
        ⟨.ok (), .ok (), .completed 0 markerBuf, .stream [] (some "read error"), .ok ()⟩).resp =
      ⟨500, false, some "read error", none, none, none⟩ := by
  decide

/-- C6 (amended): an error from the awaited `getArchive` call is caught
and the collector returns an empty ArtifactSet, with the job still
reported successful; but an error emitted by the extraction stream
rejects the collection promise, which propagates, and the job is
reported as an internal error instead. -/
theorem archive_error_swallowed_stream_error_propagates (d : Defaults) (req : CompileRequest)
    (w : WaitEnv) (r : Except String Unit)
    (hv : validRequest d req = true) (hw : (waitForCompletion w).success = true) :
    (∀ m, (compileHandler d req ⟨.ok (), .ok (), w, .archiveError m, r⟩).resp =
      ⟨200, true, none, none, some (req.framework.getD "angular"), some []⟩) ∧
    (∀ es m, (compileHandler d req ⟨.ok (), .ok (), w, .stream es (some m), r⟩).resp =
      ⟨500, false, some m, none, none, none⟩) := by
  constructor
  · intro m
    unfold compileHandler
    rw [validationResponse_eq_none d req hv]
    show (runCompileJob _ _).resp = _
    simp [runCompileJob, hw, extractCompiledFiles]
  · intro es m
    unfold compileHandler
    rw [validationResponse_eq_none d req hv]
    show (runCompileJob _ _).resp = _
    simp [runCompileJob, hw, extractCompiledFiles]

/-- Witness for C6's amended theorem: a failed archive request still
yields a successful response with an empty file set. -/
theorem archive_error_swallowed_witness :
    (compileHandler dflt0 req0
        ⟨.ok (), .ok (), .completed 0 markerBuf, .archiveError "no such container", .ok ()⟩).resp =
      ⟨200, true, none, none, some "angular", some []⟩ :=
  (archive_error_swallowed_stream_error_propagates dflt0 req0 (.completed 0 markerBuf) (.ok ())
    (by decide) (by decide)).1 "no such container"

/-- C4: each of the four numeric override fields is validated
independently; a present non-positive or non-numeric value yields a 400
response whose error message names the offending field (for the three
resource fields the combined message names them, provided the
earlier-checked timeout field is not itself invalid, in which case the
timeout-naming message is produced instead). -/
theorem numeric_override_validation (d : Defaults) (req : CompileRequest) (env : SandboxEnv)
    (hfw : (FRAMEWORKS (jsToLowerCase (req.framework.getD "angular"))).isSome = true)
    (hcode : codeInvalid req.code = false) :
    (∀ t, req.timeout = some t → t.invalid = true →
      (compileHandler d req env).resp.status = 400 ∧
      jsIncludesStr "timeout" (((compileHandler d req env).resp.error).getD "") = true) ∧
    (∀ v, req.memory = some v → v.invalid = true →
      (compileHandler d req env).resp.status = 400 ∧
      ((effTimeout d req).invalid = false →
        jsIncludesStr "memory" (((compileHandler d req env).resp.error).getD "") = true) ∧
      ((effTimeout d req).invalid = true →
        jsIncludesStr "timeout" (((compileHandler d req env).resp.error).getD "") = true)) ∧
    (∀ v, req.cpuPeriod = some v → v.invalid = true →
      (compileHandler d req env).resp.status = 400 ∧
      ((effTimeout d req).invalid = false →
        jsIncludesStr "cpuPeriod" (((compileHandler d req env).resp.error).getD "") = true) ∧
      ((effTimeout d req).invalid = true →
        jsIncludesStr "timeout" (((compileHandler d req env).resp.error).getD "") = true)) ∧
    (∀ v, req.cpuQuota = some v → v.invalid = true →
      (compileHandler d req env).resp.status = 400 ∧
      ((effTimeout d req).invalid = false →
        jsIncludesStr "cpuQuota" (((compileHandler d req env).resp.error).getD "") = true) ∧
      ((effTimeout d req).invalid = true →
        jsIncludesStr "timeout" (((compileHandler d req env).resp.error).getD "") = true)) := by
  obtain ⟨cfg, hcfg⟩ := Option.isSome_iff_exists.mp hfw
  have hT : ∀ (_ : (effTimeout d req).invalid = true),
      compileHandler d req env =
        ⟨badRequest "Invalid timeout value. Must be a positive number (milliseconds)",
          false, 0⟩ := by
    intro ht
    unfold compileHandler validationResponse
    simp [ht]
  have hM : ∀ (_ : (effTimeout d req).invalid = false) (_ : limitsInvalid d req = true),
      compileHandler d req env =
        ⟨badRequest "Invalid resource limits. memory, cpuPeriod, and cpuQuota must be positive numbers",
          false, 0⟩ := by
    intro ht hl
    unfold compileHandler validationResponse
    simp [ht, hcfg, hcode, hl]
  refine ⟨?_, ?_, ?_, ?_⟩
  · intro t hsome hinv
    have ht : (effTimeout d req).invalid = true := by simp [effTimeout, hsome, hinv]
    rw [hT ht]
    exact ⟨rfl, by decide⟩
  · intro v hsome hinv
    cases hti : (effTimeout d req).invalid with
    | true =>
      rw [hT hti]
      refine ⟨rfl, fun hc => ?_, fun _ => by decide⟩
      exact absurd hc (by decide)
    | false =>
      have hl : limitsInvalid d req = true := by
        simp [limitsInvalid, effMemory, hsome, hinv]
      rw [hM hti hl]
      refine ⟨rfl, fun _ => by decide, fun hc => ?_⟩
      exact absurd hc (by decide)
  · intro v hsome hinv
    cases hti : (effTimeout d req).invalid with
    | true =>
      rw [hT hti]
      refine ⟨rfl, fun hc => ?_, fun _ => by decide⟩
      exact absurd hc (by decide)
    | false =>
      have hl : limitsInvalid d req = true := by
        simp [limitsInvalid, effCpuPeriod, hsome, hinv]
      rw [hM hti hl]
      refine ⟨rfl, fun _ => by decide, fun hc => ?_⟩
      exact absurd hc (by decide)
  · intro v hsome hinv
    cases hti : (effTimeout d req).invalid with
    | true =>
      rw [hT hti]
      refine ⟨rfl, fun hc => ?_, fun _ => by decide⟩
      exact absurd hc (by decide)
    | false =>
      have hl : limitsInvalid d req = true := by
        simp [limitsInvalid, effCpuQuota, hsome, hinv]
      rw [hM hti hl]
      refine ⟨rfl, fun _ => by decide, fun hc => ?_⟩
      exact absurd hc (by decide)

/-- Witness for C4: a request with `memory: 0` (other fields valid) is
rejected with a 400 whose message names `memory`. -/
theorem numeric_override_validation_witness :
    (compileHandler dflt0 reqBadMem
      ⟨.ok (), .ok (), .timeoutFirst, .stream [] none, .ok ()⟩).resp.status = 400 ∧
    jsIncludesStr "memory"
      (((compileHandler dflt0 reqBadMem
        ⟨.ok (), .ok (), .timeoutFirst, .stream [] none, .ok ()⟩).resp.error).getD "") = true := by
  have h := (numeric_override_validation dflt0 reqBadMem
    ⟨.ok (), .ok (), .timeoutFirst, .stream [] none, .ok ()⟩
    (by decide) (by decide)).2.1 (JSNum.num 0) rfl (by decide)
  exact ⟨h.1, h.2.1 (by decide)⟩

/-- C10: framework key matching is case-insensitive — whenever the
ASCII-lowercase form of the request's framework string is `angular`,
`react`, or `vue`, a profile is resolved; and (with a valid effective
timeout, which is checked first) the request is rejected as an
unsupported framework exactly when the lowercased key has no profile. -/
theorem framework_lookup_case_insensitive (d : Defaults) (req : CompileRequest)
    (env : SandboxEnv) (ht : (effTimeout d req).invalid = false) :
    (((compileHandler d req env).resp.status = 400 ∧
      (compileHandler d req env).resp.error =
        some ("Unsupported framework: " ++ req.framework.getD "angular"))
      ↔ FRAMEWORKS (jsToLowerCase (req.framework.getD "angular")) = none) ∧
    (∀ s : String,
      (jsToLowerCase s = "angular" ∨ jsToLowerCase s = "react" ∨ jsToLowerCase s = "vue") →
      (FRAMEWORKS (jsToLowerCase s)).isSome = true) := by
  constructor
  · cases hcfg : FRAMEWORKS (jsToLowerCase (req.framework.getD "angular")) with
    | none =>
      have hresp : compileHandler d req env =
          ⟨badRequest ("Unsupported framework: " ++ req.framework.getD "angular"), false, 0⟩ := by
        unfold compileHandler validationResponse
        simp [ht, hcfg]
      rw [hresp]
      simp [badRequest]
    | some cfg =>
      apply iff_of_false
      · intro hl
        obtain ⟨h400, herr⟩ := hl
        cases hc : codeInvalid req.code with
        | true =>
          have hresp : compileHandler d req env =
              ⟨badRequest "Invalid code provided", false, 0⟩ := by
            unfold compileHandler validationResponse
            simp [ht, hcfg, hc]
          rw [hresp] at herr
          exact msg_ne_unsupported "Invalid code provided" (by decide) _
            (Option.some.inj herr)
        | false =>
          cases hli : limitsInvalid d req with
          | true =>
            have hresp : compileHandler d req env =
                ⟨badRequest "Invalid resource limits. memory, cpuPeriod, and cpuQuota must be positive numbers",
                  false, 0⟩ := by
              unfold compileHandler validationResponse
              simp [ht, hcfg, hc, hli]
            rw [hresp] at herr
            exact msg_ne_unsupported
              "Invalid resource limits. memory, cpuPeriod, and cpuQuota must be positive numbers"
              (by decide) _ (Option.some.inj herr)
          | false =>
            have hrun : compileHandler d req env =
                runCompileJob (req.framework.getD "angular") env := by
              unfold compileHandler validationResponse
              simp [ht, hcfg, hc, hli]
            rw [hrun] at h400 herr
            obtain ⟨c2, s2, w2, a2, r2⟩ := env
            cases c2 with
            | error m => simp [runCompileJob] at h400
            | ok u =>
              cases s2 with
              | error m => simp [runCompileJob] at h400
              | ok u2 =>
                cases hw : (waitForCompletion w2).success with
                | true =>
                  cases he : extractCompiledFiles a2 with
                  | error m => simp [runCompileJob, hw, he] at h400
                  | ok fl => simp [runCompileJob, hw, he] at herr
                | false =>
                  simp [runCompileJob, hw] at herr
                  exact buildfail_ne_unsupported _ herr
      · simp
  · intro s hs
    rcases hs with h | h | h <;> rw [h] <;> decide

/-- Witness for C10: the uppercase key `REACT` resolves a profile. -/
theorem framework_lookup_case_insensitive_witness :
    (FRAMEWORKS (jsToLowerCase "REACT")).isSome = true :=
  (framework_lookup_case_insensitive dflt0 req0
    ⟨.ok (), .ok (), .timeoutFirst, .stream [] none, .ok ()⟩ (by decide)).2 "REACT" (by decide)

end FrontCompiler
